import Mathlib

/-!  Verification of the signal-exchange parser and wrapper generator
     of `parse_wrapped.py`: an XML tree model, variable classification by
     naming convention, metadata extraction, KPI signal grouping with
     recursive alias resolution, and Modelica wrapper synthesis. -/

/-- Role constants, as in the source: `READ = 0`. -/
def READ : Nat := 0

/-- Role constant `OVERWRITE = 1`. -/
def OVERWRITE : Nat := 1

/-- Role constant `KPI = 2`. -/
def KPI : Nat := 2

/-- Python `s.split(sep)` for a one-character separator, on char lists. -/
def splitCharAux (sep : Char) : List Char → List (List Char)
  | [] => [[]]
  | c :: cs =>
    if c = sep then [] :: splitCharAux sep cs
    else
      match splitCharAux sep cs with
      | [] => [[c]]
      | h :: t => (c :: h) :: t

/-- Python `s.split(sep)` for a one-character separator. -/
def strSplitChar (sep : Char) (s : String) : List String :=
  (splitCharAux sep s.data).map String.mk

/-- The pattern begins the list. -/
def startsAt : List Char → List Char → Bool
  | [], _ => true
  | _ :: _, [] => false
  | p :: ps, c :: cs => p = c && startsAt ps cs

/-- Python substring containment `pat in s`, on char lists. -/
def hasSub (pat : List Char) : List Char → Bool
  | [] => startsAt pat []
  | c :: cs => startsAt pat (c :: cs) || hasSub pat cs

/-- Python `pat in s` on strings. -/
def strContains (s pat : String) : Bool := hasSub pat.data s.data

/-- Python `'.'.join(xs)`. -/
def joinDot : List String → String
  | [] => ""
  | [x] => x
  | x :: xs => x ++ "." ++ joinDot xs

/-- `'.'.join(instance.split('.')[:-1])`: the dotted path without its final
segment. -/
def basenameOf (s : String) : String := joinDot ((strSplitChar '.' s).dropLast)

/-- `s.split('.')[-1]`: the final dot segment. -/
def signalTypeOf (s : String) : String := (strSplitChar '.' s).getLastD ""

/-- Python `block.replace('.', '_')`. -/
def replDots (s : String) : String :=
  String.mk (s.data.map (fun c => if c = '.' then '_' else c))

/-- Number of positions at which the pattern occurs; the patterns counted
below never self-overlap, so this is the plain occurrence count. -/
def occCount (pat : List Char) : List Char → Nat
  | [] => if startsAt pat [] then 1 else 0
  | c :: cs => (if startsAt pat (c :: cs) then 1 else 0) + occCount pat cs

/-- Occurrence count of `pat` inside `s`. -/
def strCount (s pat : String) : Nat := occCount pat.data s.data

/-- Value of a digit string. -/
def natOfDigits (ds : List Char) : Nat :=
  ds.foldl (fun a c => a * 10 + (c.toNat - 48)) 0

/-- Mantissa of a decimal float literal: integer digits, optional point and
fraction digits; at least one digit overall. -/
def parseMantissa (cs : List Char) : Option (Rat × List Char) :=
  let ip := cs.takeWhile Char.isDigit
  let r1 := cs.dropWhile Char.isDigit
  match r1 with
  | '.' :: r2 =>
    let fp := r2.takeWhile Char.isDigit
    let r3 := r2.dropWhile Char.isDigit
    if ip.isEmpty && fp.isEmpty then none
    else some ((natOfDigits ip : Rat) + (natOfDigits fp : Rat) / ((10 : Rat) ^ fp.length), r3)
  | _ => if ip.isEmpty then none else some ((natOfDigits ip : Rat), r1)

/-- Exponent part after `e`/`E`: optional sign then digits, consuming all. -/
def parseExponent (cs : List Char) : Option Int :=
  let core := fun (sgn : Int) (rest : List Char) =>
    let ds := rest.takeWhile Char.isDigit
    if ds.isEmpty || !(rest.dropWhile Char.isDigit).isEmpty then (none : Option Int)
    else some (sgn * (natOfDigits ds : Int))
  match cs with
  | '+' :: r => core 1 r
  | '-' :: r => core (-1) r
  | r => core 1 r

/-- Scale a mantissa by a signed power of ten. -/
def applyExp (m : Rat) (e : Int) : Rat :=
  if 0 ≤ e then m * (10 : Rat) ^ e.toNat else m / (10 : Rat) ^ (-e).toNat

/-- Python `float(s)` on the finite decimal grammar: surrounding whitespace,
optional sign, digits with optional fraction, optional exponent.  `inf`,
`nan` and digit-group underscores are not modelled (they count as
unparseable); no such string occurs in the documents handled here. -/
def pyFloat? (s : String) : Option Rat :=
  let cs := ((s.data.dropWhile Char.isWhitespace).reverse.dropWhile Char.isWhitespace).reverse
  let signAndRest : Rat × List Char :=
    match cs with
    | '+' :: r => (1, r)
    | '-' :: r => (-1, r)
    | r => (1, r)
  match parseMantissa signAndRest.2 with
  | none => none
  | some (m, rest) =>
    match rest with
    | [] => some (signAndRest.1 * m)
    | 'e' :: r => (parseExponent r).map (fun e => signAndRest.1 * applyExp m e)
    | 'E' :: r => (parseExponent r).map (fun e => signAndRest.1 * applyExp m e)
    | _ => none

/-- Failure modes of the pipeline, mirroring the Python exceptions:
StopIteration from `next(filter(...))` (`missingNode`), AttributeError when
`find` returns None (`missingChild`), KeyError on `attrib` (`missingAttr`),
IndexError from `split('"')[1]` (`malformedQuote`), ValueError from `float`
(`malformedFloat`) or from an unknown mangling style (`invalidStyle`),
TypeError when a variable has no `name` attribute (`nameNone`), and
`fuelOut` standing for non-termination of the alias recursion. -/
inductive PErr : Type where
  | missingNode (nm : String)
  | missingChild (tag : String)
  | missingAttr (key : String)
  | malformedQuote (s : String)
  | malformedFloat (s : String)
  | invalidStyle (s : String)
  | nameNone
  | fuelOut
  deriving DecidableEq

/-- One element of the parsed XML document: tag, attributes, children. -/
inductive XNode : Type where
  | node (tag : String) (attrs : List (String × String)) (children : List XNode)

/-- Attribute list of an element. -/
def XNode.attrs : XNode → List (String × String)
  | .node _ a _ => a

/-- Child elements. -/
def XNode.children : XNode → List XNode
  | .node _ _ c => c

/-- Tag of an element. -/
def XNode.tag : XNode → String
  | .node t _ _ => t

/-- Python `elem.get(key)`: attribute lookup, None when absent. -/
def XNode.get? (n : XNode) (k : String) : Option String :=
  (n.attrs.find? (fun p => p.1 == k)).map (fun p => p.2)

/-- Python `elem.attrib.get(key, "")`. -/
def XNode.attribGet (n : XNode) (k : String) : String := (n.get? k).getD ""

/-- Python `elem.find(tag)`: first direct child with the given tag. -/
def XNode.find? (n : XNode) (t : String) : Option XNode :=
  n.children.find? (fun c => c.tag == t)

mutual

/-- Python `elem.iter()`: the element followed by all of its descendants, in
document order. -/
def XNode.iterAll : XNode → List XNode
  | .node t a cs => .node t a cs :: iterListAll cs

/-- `iter()` over a sibling list. -/
def iterListAll : List XNode → List XNode
  | [] => []
  | c :: cs => XNode.iterAll c ++ iterListAll cs

end

/-- Python `tree.iter(tag)`. -/
def XNode.iterTag (n : XNode) (t : String) : List XNode :=
  (n.iterAll).filter (fun c => c.tag == t)

/-- `next(filter(lambda x: x.attrib.get("name", "") == nm, tree.getroot().iter()))`,
with None in place of the StopIteration exception. -/
def firstNamed (tree : XNode) (nm : String) : Option XNode :=
  (tree.iterAll).find? (fun x => x.attribGet "name" == nm)

/-- `node.find(t).attrib["string"]` with both failure modes explicit. -/
def childString (n : XNode) (t : String) : Except PErr String :=
  match n.find? t with
  | none => .error (.missingChild t)
  | some c =>
    match c.get? "string" with
    | none => .error (.missingAttr "string")
    | some s => .ok s

/-- Association-list model of a Python dict: keys in insertion order. -/
def alistFind? {α : Type} : List (String × α) → String → Option α
  | [], _ => none
  | p :: ps, k => if p.1 == k then some p.2 else alistFind? ps k

/-- Python dict assignment: replace in place, else append. -/
def alistSet {α : Type} : List (String × α) → String → α → List (String × α)
  | [], k, v => [(k, v)]
  | p :: ps, k, v => if p.1 == k then (k, v) :: ps else p :: alistSet ps k v

/-- `{Unit, Description, Minimum, Maximum}` for one signal-exchange block. -/
structure InstanceRecord : Type where
  Unit : String
  Description : String
  Minimum : Option Rat
  Maximum : Option Rat
  deriving DecidableEq

/-- `instances = {'Overwrite': dict(), 'Read': dict()}`. -/
structure Instances : Type where
  Overwrite : List (String × InstanceRecord)
  Read : List (String × InstanceRecord)
  deriving DecidableEq

/-- The signal-group map `signals`, insertion-ordered. -/
abbrev Signals := List (String × List String)

/-- `signals[k].append(v)` when `k in signals`, else `signals[k] = [v]`. -/
def signalsAdd : Signals → String → String → Signals
  | [], k, v => [(k, [v])]
  | p :: ps, k, v => if p.1 == k then (p.1, p.2 ++ [v]) :: ps else p :: signalsAdd ps k v

/-- The closed set of zone-scoped KPI categories. -/
def zoneCats : List String :=
  ["AirZoneTemperature", "RadiativeZoneTemperature", "OperativeZoneTemperature",
   "RelativeHumidity", "CO2Concentration"]

/-- Enough recursion fuel for any alias chain that never revisits a node:
one lookup per node of the tree, plus one. -/
def treeFuel (tree : XNode) : Nat := (tree.iterAll).length + 1

/-- `_get_final_value`, with explicit fuel standing for the Python call
stack: a cyclic alias chain, on which the source diverges, yields `fuelOut`
here.  A chain that terminates never revisits a name, so `treeFuel` is
always sufficient for the terminating cases. -/
def _get_final_value (tree : XNode) : Nat → String → Except PErr String
  | 0, _ => .error .fuelOut
  | fuel + 1, var =>
    match firstNamed tree var with
    | none => .error (.missingNode var)
    | some node =>
      match childString node "bindExpression" with
      | .error e => .error e
      | .ok s =>
        if strContains s "\"" then .ok ((strSplitChar '"' s).getD 1 "")
        else _get_final_value tree fuel s

/-- `_make_var_name(block, style, description='', attribute='')`.  The source
contains a no-op `if description == '': description = ''` branch, mirrored by
the conditional below. -/
def _make_var_name (block style description attr : String) : Except PErr String :=
  let nm := replDots block
  let descr := if description = "" then "" else " \"" ++ description ++ "\""
  if style = "input_signal" then .ok (nm ++ "_u" ++ attr ++ descr)
  else if style = "input_activate" then .ok (nm ++ "_activate" ++ descr)
  else if style = "output" then .ok (nm ++ "_y" ++ attr ++ descr)
  else .error (.invalidStyle style)

/-- Companion-node suffix: `'.y' if flag == READ else '.u'`. -/
def sigSuffix (flag : Nat) : String := if flag == READ then ".y" else ".u"

/-- The body of `_process_readwrite` up to (not including) the final map
assignment; the source evaluates exactly these fallible steps in this
order.  The repeated `node.find('attributesValues')` of the source always
returns the same first child, so it is bound once. -/
def extractRecord (tree : XNode) (basename : String) (flag : Nat) : Except PErr InstanceRecord :=
  match firstNamed tree (basename ++ sigSuffix flag) with
  | none => .error (.missingNode (basename ++ sigSuffix flag))
  | some node =>
    match XNode.find? node "attributesValues" with
    | none => .error (.missingChild "attributesValues")
    | some av =>
      match childString av "unit" with
      | .error e => .error e
      | .ok us =>
        match (strSplitChar '"' us)[1]? with
        | none => .error (.malformedQuote us)
        | some u =>
          match firstNamed tree (basename ++ ".description") with
          | none => .error (.missingNode (basename ++ ".description"))
          | some dnode =>
            match childString dnode "bindExpression" with
            | .error e => .error e
            | .ok ds =>
              match (strSplitChar '"' ds)[1]? with
              | none => .error (.malformedQuote ds)
              | some d =>
                if flag == READ then
                  .ok { Unit := u, Description := d, Minimum := none, Maximum := none }
                else
                  match childString av "minValue" with
                  | .error e => .error e
                  | .ok ms =>
                    match pyFloat? ms with
                    | none => .error (.malformedFloat ms)
                    | some mi =>
                      match childString av "maxValue" with
                      | .error e => .error e
                      | .ok xs =>
                        match pyFloat? xs with
                        | none => .error (.malformedFloat xs)
                        | some ma =>
                          .ok { Unit := u, Description := d, Minimum := some mi, Maximum := some ma }

/-- `_process_readwrite(tree, instance, instances, flag)`: extract the record
then store it under the basename in the map selected by the flag. -/
def _process_readwrite (tree : XNode) (inst : String) (maps : Instances) (flag : Nat) : Except PErr Instances :=
  match extractRecord tree (basenameOf inst) flag with
  | .error e => .error e
  | .ok r =>
    if flag == READ then
      .ok { maps with Read := alistSet maps.Read (basenameOf inst) r }
    else
      .ok { maps with Overwrite := alistSet maps.Overwrite (basenameOf inst) r }

/-- `_process_KPI(tree, var, signals, instance)`. -/
def _process_KPI (tree var : XNode) (signals : Signals) (inst : String) : Except PErr Signals :=
  match childString var "bindExpression" with
  | .error e => .error e
  | .ok bs =>
    match (if signalTypeOf bs ∈ zoneCats
           then Except.map (fun z => signalTypeOf bs ++ "[" ++ z ++ "]")
                  (_get_final_value tree (treeFuel tree) (basenameOf inst ++ ".zone"))
           else .ok (signalTypeOf bs)) with
    | .error e => .error e
    | .ok st =>
      match _make_var_name (basenameOf inst) "output" "" "" with
      | .error e => .error e
      | .ok nm2 => .ok (signalsAdd signals st nm2)

/-- The marker tests of `parse_XML`, in their fixed precedence. -/
def classify (name : String) : Option Nat :=
  if strContains name "boptestRead" then some READ
  else if strContains name "boptestOverwrite" then some OVERWRITE
  else if strContains name "KPIs" then some KPI
  else none

/-- One iteration of the `for var in vars` loop of `parse_XML`. -/
def parseStep (tree : XNode) (st : Instances × Signals) (var : XNode) : Except PErr (Instances × Signals) :=
  match var.get? "name" with
  | none => .error .nameNone
  | some name =>
    match classify name with
    | none => .ok st
    | some f =>
      if f == KPI then
        match _process_KPI tree var st.2 name with
        | .error e => .error e
        | .ok s => .ok (st.1, s)
      else
        match _process_readwrite tree name st.1 f with
        | .error e => .error e
        | .ok i => .ok (i, st.2)

/-- `parse_XML` on an already-loaded tree: classify every `variable` element
and dispatch it to the extractors. -/
def parse_XML (tree : XNode) : Except PErr (Instances × Signals) :=
  (tree.iterTag "variable").foldlM (parseStep tree) ({ Overwrite := [], Read := [] }, [])

/-- Python `str()` of a float, restricted to the integral values produced
by the scenarios treated here; `toString` of the normalised rational stands
in for the general shortest-round-trip rendering on non-integral values. -/
def formatPyFloat (q : Rat) : String :=
  if q.den = 1 then toString q.num ++ ".0" else toString q

/-- `'{0}'.format(x)` where x is a Python float or None. -/
def fmtOpt : Option Rat → String
  | none => "None"
  | some q => formatPyFloat q

/-- A Python for-loop collecting one result per element; the first raised
exception aborts the whole loop. -/
def mapExcept {α β : Type} (f : α → Except PErr β) : List α → Except PErr (List β)
  | [] => .ok []
  | a :: as =>
    match f a with
    | .error e => .error e
    | .ok b => Except.map (fun bs => b :: bs) (mapExcept f as)

/-- The input-signal and input-activation declarations emitted per
Overwrite block by `create_wrapper`. -/
def owDecl (p : String × InstanceRecord) : Except PErr String :=
  match _make_var_name p.1 "input_signal" p.2.Description
      ("(unit=\"" ++ p.2.Unit ++ "\", min=" ++ fmtOpt p.2.Minimum ++ ", max=" ++ fmtOpt p.2.Maximum ++ ")") with
  | .error e => .error e
  | .ok wsig =>
    match _make_var_name p.1 "input_activate" ("Activation for " ++ p.2.Description) "" with
    | .error e => .error e
    | .ok wact =>
      .ok ("\tModelica.Blocks.Interfaces.RealInput " ++ wsig ++ ";\n"
        ++ "\tModelica.Blocks.Interfaces.BooleanInput " ++ wact ++ ";\n")

/-- The output declaration emitted per Read/Overwrite block. -/
def outDecl (p : String × InstanceRecord) : Except PErr String :=
  match _make_var_name p.1 "output" "" ("(unit=\"" ++ p.2.Unit ++ "\")") with
  | .error e => .error e
  | .ok v =>
    .ok ("\tModelica.Blocks.Interfaces.RealOutput " ++ v ++ " = mod." ++ p.1
      ++ ".y \"" ++ p.2.Description ++ "\";\n")

/-- One connection clause of the `mod(...)` instantiation, together with the
separator or closing comment that the source appends right after it. -/
def connClause (n i : Nat) (p : String × InstanceRecord) : Except PErr String :=
  match _make_var_name p.1 "input_signal" "" "" with
  | .error e => .error e
  | .ok u =>
    match _make_var_name p.1 "input_activate" "" "" with
    | .error e => .error e
    | .ok a =>
      .ok ("\t\t" ++ p.1 ++ "(uExt(y=" ++ u ++ "),activate(y=" ++ a ++ "))"
        ++ (if i = n - 1 then ") \"Original model with overwrites\";\n" else ",\n"))

/-- `create_wrapper(model_path, instances)`: `.ok none` is the NoWrapper
sentinel (the source also emits a non-fatal `warnings.warn` advisory on that
path and returns None); otherwise the wrapper text, fragments joined in the
emission order of the source. -/
def create_wrapper (model_path : String) (maps : Instances) : Except PErr (Option String) :=
  if maps.Overwrite.length + maps.Read.length = 0 then .ok none
  else
    match mapExcept owDecl maps.Overwrite with
    | .error e => .error e
    | .ok owDecls =>
      match mapExcept outDecl (maps.Read ++ maps.Overwrite) with
      | .error e => .error e
      | .ok outs =>
        match (if maps.Overwrite.length ≠ 0
               then mapExcept (fun q => connClause maps.Overwrite.length q.1 q.2) maps.Overwrite.enum
               else .ok [") \"Original model without overwrites\";\n"]) with
        | .error e => .error e
        | .ok conns =>
          .ok (some (String.join
            (["model wrapped \"Wrapped model of " ++ model_path ++ "\"\n\t// Input overwrite\n"]
              ++ owDecls ++ ["\t// Out read\n"] ++ outs
              ++ ["\t// Original model\n", "\t" ++ model_path ++ " mod(\n"]
              ++ conns ++ ["end wrapped;\n"])))

/-- Scenario A instance maps: one Overwrite entry for `sys.ctrl`. -/
def instA : Instances :=
  { Overwrite := [("sys.ctrl",
      { Unit := "K", Description := "setpoint", Minimum := some 280, Maximum := some 320 })],
    Read := [] }

/-- The Scenario A wrapper text. -/
def wrapAtxt : String :=
  match create_wrapper "Plant" instA with
  | .ok (some t) => t
  | _ => ""

/-- Signal node `a.y` with unit `"K"` and bounds. -/
def ayNode : XNode :=
  .node "variable" [("name", "a.y")]
    [.node "attributesValues" []
      [.node "unit" [("string", "\"K\"")] [],
       .node "minValue" [("string", "280.0")] [],
       .node "maxValue" [("string", "320.0")] []]]

/-- Description node `a.description`. -/
def adNode : XNode :=
  .node "variable" [("name", "a.description")]
    [.node "bindExpression" [("string", "\"setpoint\"")] []]

/-- A tree on which Read extraction of basename `a` succeeds. -/
def tRW : XNode := .node "dae" [] [ayNode, adNode]

/-- The record extracted from `tRW` for basename `a` with the Read flag. -/
def recA : InstanceRecord :=
  { Unit := "K", Description := "setpoint", Minimum := none, Maximum := none }

/-- The instance maps after a Read extraction of basename `a` from `tRW`. -/
def instRW : Instances := { Overwrite := [], Read := [("a", recA)] }

/-- Signal node `b.y` whose unit attribute holds an empty quoted substring. -/
def t5uy : XNode :=
  .node "variable" [("name", "b.y")]
    [.node "attributesValues" [] [.node "unit" [("string", "\"\"")] []]]

/-- Description node `b.description`. -/
def t5d : XNode :=
  .node "variable" [("name", "b.description")]
    [.node "bindExpression" [("string", "\"d\"")] []]

/-- A tree on which Read extraction succeeds with an empty Unit string. -/
def t5 : XNode := .node "dae" [] [t5uy, t5d]

/-- The record extracted from `t5`: its Unit is the empty string. -/
def rec5 : InstanceRecord :=
  { Unit := "", Description := "d", Minimum := none, Maximum := none }

/-- KPI variable `senT.KPIs` bound to category `AirZoneTemperature`. -/
def vKPI : XNode :=
  .node "variable" [("name", "senT.KPIs")]
    [.node "bindExpression" [("string", "KPIs.AirZoneTemperature")] []]

/-- Alias node `senT.zone`, pointing at `alias0`. -/
def zoneVar : XNode :=
  .node "variable" [("name", "senT.zone")]
    [.node "bindExpression" [("string", "alias0")] []]

/-- Alias target `alias0`, holding the literal `"Core_ZONE"`. -/
def aliasVar : XNode :=
  .node "variable" [("name", "alias0")]
    [.node "bindExpression" [("string", "\"Core_ZONE\"")] []]

/-- A tree whose zone alias chain has one intermediate hop. -/
def tKPI : XNode := .node "dae" [] [vKPI, zoneVar, aliasVar]

/-- KPI variable with basename `a.b` and non-zoned category `Foo`. -/
def vColl1 : XNode :=
  .node "variable" [("name", "a.b.KPIs")]
    [.node "bindExpression" [("string", "x.Foo")] []]

/-- KPI variable with the distinct basename `a_b` and the same category. -/
def vColl2 : XNode :=
  .node "variable" [("name", "a_b.KPIs")]
    [.node "bindExpression" [("string", "y.Foo")] []]

/-- A tree whose two distinct KPI basenames mangle to the same identifier. -/
def tColl : XNode := .node "dae" [] [vColl1, vColl2]

/-- A plain variable node matching none of the three markers. -/
def vPlain : XNode := .node "variable" [("name", "nothing.here")] []

/-- An attributesValues child whose unit attribute has no quote character. -/
def qavNode : XNode :=
  .node "attributesValues" [] [.node "unit" [("string", "K")] []]

/-- Signal node `q.y` whose unit attribute has no quote character. -/
def qyNode : XNode := .node "variable" [("name", "q.y")] [qavNode]

/-- A tree whose unit attribute is missing its quoted substring. -/
def t8b : XNode := .node "dae" [] [qyNode]

/-- An attributesValues child with a well-formed unit. -/
def davNode : XNode :=
  .node "attributesValues" [] [.node "unit" [("string", "\"C\"")] []]

/-- Signal node `d.y` with a well-formed unit. -/
def dyNode : XNode := .node "variable" [("name", "d.y")] [davNode]

/-- A tree lacking the `d.description` companion node. -/
def t8c : XNode := .node "dae" [] [dyNode]

/-- An attributesValues child whose minValue is not a float literal. -/
def mavNode : XNode :=
  .node "attributesValues" []
    [.node "unit" [("string", "\"K\"")] [],
     .node "minValue" [("string", "abc")] [],
     .node "maxValue" [("string", "1.0")] []]

/-- Overwrite signal node `m.u` whose minValue is not a float literal. -/
def muNode : XNode := .node "variable" [("name", "m.u")] [mavNode]

/-- Description node `m.description`. -/
def mdNode : XNode :=
  .node "variable" [("name", "m.description")]
    [.node "bindExpression" [("string", "\"dd\"")] []]

/-- A tree whose Overwrite minValue string is unparseable. -/
def t8 : XNode := .node "dae" [] [muNode, mdNode]

/-- An attributesValues child whose maxValue is not a float literal. -/
def navNode : XNode :=
  .node "attributesValues" []
    [.node "unit" [("string", "\"K\"")] [],
     .node "minValue" [("string", "1.0")] [],
     .node "maxValue" [("string", "xyz")] []]

/-- Overwrite signal node `n.u` whose maxValue is not a float literal. -/
def nuNode : XNode := .node "variable" [("name", "n.u")] [navNode]

/-- Description node `n.description`. -/
def ndNode : XNode :=
  .node "variable" [("name", "n.description")]
    [.node "bindExpression" [("string", "\"nn\"")] []]

/-- A tree whose Overwrite maxValue string is unparseable. -/
def t8max : XNode := .node "dae" [] [nuNode, ndNode]

/-- One resolvable alias hop: looking `nm` up in the tree finds a node whose
bindExpression string attribute is `s`. -/
def resolvesTo (tree : XNode) (nm s : String) : Prop :=
  ∃ node, firstNamed tree nm = some node ∧ childString node "bindExpression" = .ok s

/-- A finite alias chain: starting at name `nm`, `n` non-quoted hops lead to
a final bindExpression string `s` that contains a double-quote character,
with every lookup on the way succeeding and no node revisited (a chain that
revisited a node would be infinite, hence not of this form). -/
inductive AliasChain (tree : XNode) : String → String → Nat → Prop where
  | done (nm s : String) (hres : resolvesTo tree nm s)
      (hq : strContains s "\"" = true) : AliasChain tree nm s 0
  | hop (nm s t : String) (n : Nat) (hres : resolvesTo tree nm s)
      (hq : strContains s "\"" = false) (rest : AliasChain tree s t n) :
      AliasChain tree nm t (n + 1)

theorem mvn_input_signal (b d a : String) :
    _make_var_name b "input_signal" d a
      = .ok (replDots b ++ "_u" ++ a ++ (if d = "" then "" else " \"" ++ d ++ "\"")) := rfl

theorem mvn_input_activate (b d a : String) :
    _make_var_name b "input_activate" d a
      = .ok (replDots b ++ "_activate" ++ (if d = "" then "" else " \"" ++ d ++ "\"")) := rfl

theorem mvn_output (b d a : String) :
    _make_var_name b "output" d a
      = .ok (replDots b ++ "_y" ++ a ++ (if d = "" then "" else " \"" ++ d ++ "\"")) := rfl

theorem mvn_output_plain (b : String) :
    _make_var_name b "output" "" "" = .ok (replDots b ++ "_y") := by
  rw [mvn_output]
  simp [String.append_empty]

theorem alistFind_alistSet {α : Type} (m : List (String × α)) (k : String) (v : α) :
    alistFind? (alistSet m k v) k = some v := by
  induction m with
  | nil => simp [alistSet, alistFind?]
  | cons p ps ih =>
    cases hp : p.1 == k with
    | true => simp [alistSet, alistFind?, hp]
    | false => simp [alistSet, alistFind?, hp, ih]

theorem signalsAdd_new (sg : Signals) (k v : String) (h : alistFind? sg k = none) :
    signalsAdd sg k v = sg ++ [(k, [v])] := by
  induction sg with
  | nil => rfl
  | cons p ps ih =>
    cases hp : p.1 == k with
    | true => simp [alistFind?, hp] at h
    | false =>
      simp only [alistFind?, hp] at h
      simp only [signalsAdd, hp]
      simp [ih h]

theorem signalsAdd_app (sg : Signals) (k v : String) (l : List String)
    (h : alistFind? sg k = some l) :
    alistFind? (signalsAdd sg k v) k = some (l ++ [v]) := by
  induction sg with
  | nil => simp [alistFind?] at h
  | cons p ps ih =>
    cases hp : p.1 == k with
    | true =>
      simp [alistFind?, hp] at h
      simp [signalsAdd, alistFind?, hp, h]
    | false =>
      simp only [alistFind?, hp] at h
      simp only [signalsAdd, hp]
      simp only [alistFind?, hp]
      simp [ih h]

theorem splitCharAux_ne_nil (sep : Char) (cs : List Char) : splitCharAux sep cs ≠ [] := by
  cases cs with
  | nil => simp [splitCharAux]
  | cons c cs =>
    simp only [splitCharAux]
    split
    · simp
    · split <;> simp

theorem split1_isSome (cs : List Char) :
    ((splitCharAux '"' cs)[1]?).isSome = hasSub ['"'] cs := by
  induction cs with
  | nil => rfl
  | cons c cs ih =>
    rcases hr : splitCharAux '"' cs with _ | ⟨a, as⟩
    · exact absurd hr (splitCharAux_ne_nil _ _)
    · by_cases h : c = '"'
      · simp [splitCharAux, hasSub, startsAt, h, hr]
      · have h2 : ¬('"' = c) := fun hh => h hh.symm
        simp only [splitCharAux, hasSub, startsAt, if_neg h, hr]
        simp only [hr] at ih
        simpa [h2] using ih

theorem strSplit_quote_isSome (s : String) :
    ((strSplitChar '"' s)[1]?).isSome = strContains s "\"" := by
  unfold strSplitChar strContains
  rw [List.getElem?_map String.mk (splitCharAux '"' s.data) 1]
  have h : ("\"".data) = ['"'] := rfl
  rw [h, ← split1_isSome s.data]
  cases (splitCharAux '"' s.data)[1]? <;> rfl

theorem noQuote_none (s : String) (h : strContains s "\"" = false) :
    (strSplitChar '"' s)[1]? = none := by
  have hs := strSplit_quote_isSome s
  rw [h] at hs
  cases ho : (strSplitChar '"' s)[1]? with
  | none => rfl
  | some q => rw [ho] at hs; simp at hs

theorem hasQuote_some (s : String) (h : strContains s "\"" = true) :
    ∃ q, (strSplitChar '"' s)[1]? = some q := by
  have hs := strSplit_quote_isSome s
  rw [h] at hs
  exact Option.isSome_iff_exists.mp hs

theorem mapExcept_ok {α β : Type} (f : α → Except PErr β) :
    ∀ (l : List α), (∀ a ∈ l, ∃ b, f a = .ok b) → ∃ bs, mapExcept f l = .ok bs
  | [], _ => ⟨[], rfl⟩
  | a :: as, h => by
    obtain ⟨b, hb⟩ := h a (List.mem_cons_self a as)
    obtain ⟨bs, hbs⟩ := mapExcept_ok f as (fun x hx => h x (List.mem_cons_of_mem a hx))
    exact ⟨b :: bs, by simp [mapExcept, hb, hbs, Except.map]⟩

theorem owDecl_ok (p : String × InstanceRecord) : ∃ s, owDecl p = .ok s := by
  unfold owDecl
  rw [mvn_input_signal, mvn_input_activate]
  exact ⟨_, rfl⟩

theorem outDecl_ok (p : String × InstanceRecord) : ∃ s, outDecl p = .ok s := by
  unfold outDecl
  rw [mvn_output]
  exact ⟨_, rfl⟩

theorem connClause_ok (n i : Nat) (p : String × InstanceRecord) :
    ∃ s, connClause n i p = .ok s := by
  unfold connClause
  rw [mvn_input_signal, mvn_input_activate]
  exact ⟨_, rfl⟩

theorem extractRecord_shape (tree : XNode) (b : String) (flag : Nat) (r : InstanceRecord)
    (h : extractRecord tree b flag = .ok r) :
    ((flag == READ) = true → r.Minimum = none ∧ r.Maximum = none)
    ∧ ((flag == READ) = false →
        ∃ node av ms xs mi ma,
          firstNamed tree (b ++ sigSuffix flag) = some node
          ∧ XNode.find? node "attributesValues" = some av
          ∧ childString av "minValue" = .ok ms ∧ pyFloat? ms = some mi ∧ r.Minimum = some mi
          ∧ childString av "maxValue" = .ok xs ∧ pyFloat? xs = some ma ∧ r.Maximum = some ma) := by
  unfold extractRecord at h
  cases h1 : firstNamed tree (b ++ sigSuffix flag) with
  | none => simp only [h1] at h; exact Except.noConfusion h
  | some node =>
  simp only [h1] at h
  cases h2 : XNode.find? node "attributesValues" with
  | none => simp only [h2] at h; exact Except.noConfusion h
  | some av =>
  simp only [h2] at h
  cases h3 : childString av "unit" with
  | error e => simp only [h3] at h; exact Except.noConfusion h
  | ok us =>
  simp only [h3] at h
  cases h4 : (strSplitChar '"' us)[1]? with
  | none => simp only [h4] at h; exact Except.noConfusion h
  | some u =>
  simp only [h4] at h
  cases h5 : firstNamed tree (b ++ ".description") with
  | none => simp only [h5] at h; exact Except.noConfusion h
  | some dnode =>
  simp only [h5] at h
  cases h6 : childString dnode "bindExpression" with
  | error e => simp only [h6] at h; exact Except.noConfusion h
  | ok ds =>
  simp only [h6] at h
  cases h7 : (strSplitChar '"' ds)[1]? with
  | none => simp only [h7] at h; exact Except.noConfusion h
  | some d =>
  simp only [h7] at h
  cases hf : flag == READ with
  | true =>
    rw [hf] at h
    rw [if_pos (rfl : (true : Bool) = true)] at h
    injection h with h'
    constructor
    · intro _
      rw [← h']
      exact ⟨rfl, rfl⟩
    · intro hcontra
      exact absurd hcontra (by simp)
  | false =>
    rw [hf] at h
    rw [if_neg (by simp : ¬((false : Bool) = true))] at h
    cases h8 : childString av "minValue" with
    | error e => simp only [h8] at h; exact Except.noConfusion h
    | ok ms =>
    simp only [h8] at h
    cases h9 : pyFloat? ms with
    | none => simp only [h9] at h; exact Except.noConfusion h
    | some mi =>
    simp only [h9] at h
    cases h10 : childString av "maxValue" with
    | error e => simp only [h10] at h; exact Except.noConfusion h
    | ok xs =>
    simp only [h10] at h
    cases h11 : pyFloat? xs with
    | none => simp only [h11] at h; exact Except.noConfusion h
    | some ma =>
    simp only [h11] at h
    injection h with h'
    constructor
    · intro hcontra
      exact absurd hcontra (by simp)
    · intro _
      refine ⟨node, av, ms, xs, mi, ma, rfl, h2, h8, h9, ?_, h10, h11, ?_⟩
      · rw [← h']
      · rw [← h']

/-- Claim C1: classification applies the marker tests on a variable's name
in fixed precedence — substring `boptestRead` gives the Read role, else
`boptestOverwrite` gives Overwrite, else `KPIs` gives KPI, else the
variable is ignored and the parse step leaves the state unchanged; a name
matching several markers receives only the first-matched role. -/
theorem claim1_classifier_precedence (name : String) :
    (strContains name "boptestRead" = true → classify name = some READ)
    ∧ (strContains name "boptestRead" = false → strContains name "boptestOverwrite" = true →
        classify name = some OVERWRITE)
    ∧ (strContains name "boptestRead" = false → strContains name "boptestOverwrite" = false →
        strContains name "KPIs" = true → classify name = some KPI)
    ∧ (strContains name "boptestRead" = false → strContains name "boptestOverwrite" = false →
        strContains name "KPIs" = false → classify name = none)
    ∧ (∀ (tree v : XNode) (st : Instances × Signals),
        XNode.get? v "name" = some name → classify name = none →
        parseStep tree st v = .ok st) := by
  refine ⟨?_, ?_, ?_, ?_, ?_⟩
  · intro h1; simp [classify, h1]
  · intro h1 h2; simp [classify, h1, h2]
  · intro h1 h2 h3; simp [classify, h1, h2, h3]
  · intro h1 h2 h3; simp [classify, h1, h2, h3]
  · intro tree v st hn hc; simp [parseStep, hn, hc]

/-- Witness for C1: a name containing all three markers is classified Read,
and an unmarked variable contributes nothing to the state. -/
theorem claim1_witness :
    classify "a.boptestReadboptestOverwriteKPIs" = some READ
    ∧ parseStep tKPI ({ Overwrite := [], Read := [] }, []) vPlain
        = .ok ({ Overwrite := [], Read := [] }, []) := by
  constructor
  · exact (claim1_classifier_precedence "a.boptestReadboptestOverwriteKPIs").1 (by decide)
  · exact (claim1_classifier_precedence "nothing.here").2.2.2.2 tKPI vPlain
      ({ Overwrite := [], Read := [] }, [])
      rfl
      ((claim1_classifier_precedence "nothing.here").2.2.2.1 (by decide) (by decide) (by decide))

/-- Claim C2: for a KPI variable, with Category the final dot segment of its
bindExpression string, a zone-scoped category groups under
`Category[Zone]` with Zone resolved from `basename ++ ".zone"`, any other
category groups under the raw category; the basename's mangled output
identifier is appended to the group's list, the list being created at the
end of the map when the key is new, so list order is first-seen order. -/
theorem claim2_kpi_grouping (tree v : XNode) (sg : Signals) (inst bs : String)
    (hbs : childString v "bindExpression" = .ok bs) :
    (signalTypeOf bs ∈ zoneCats →
      ∀ z, _get_final_value tree (treeFuel tree) (basenameOf inst ++ ".zone") = .ok z →
      _process_KPI tree v sg inst
        = .ok (signalsAdd sg (signalTypeOf bs ++ "[" ++ z ++ "]")
            (replDots (basenameOf inst) ++ "_y")))
    ∧ (signalTypeOf bs ∉ zoneCats →
      _process_KPI tree v sg inst
        = .ok (signalsAdd sg (signalTypeOf bs) (replDots (basenameOf inst) ++ "_y")))
    ∧ (∀ k val, alistFind? sg k = none → signalsAdd sg k val = sg ++ [(k, [val])])
    ∧ (∀ k val l, alistFind? sg k = some l →
        alistFind? (signalsAdd sg k val) k = some (l ++ [val])) := by
  refine ⟨?_, ?_, ?_, ?_⟩
  · intro hmem z hz
    simp only [_process_KPI, hbs, if_pos hmem, hz, Except.map, mvn_output_plain]
  · intro hmem
    simp only [_process_KPI, hbs, if_neg hmem, mvn_output_plain]
  · exact fun k val h => signalsAdd_new sg k val h
  · exact fun k val l h => signalsAdd_app sg k val l h

/-- Witness for C2: `senT.KPIs` has the zone-scoped category
`AirZoneTemperature` and its zone chain resolves to `Core_ZONE`. -/
theorem claim2_witness :
    _process_KPI tKPI vKPI [] "senT.KPIs"
      = .ok [("AirZoneTemperature[Core_ZONE]", ["senT_y"])] :=
  (claim2_kpi_grouping tKPI vKPI [] "senT.KPIs" "KPIs.AirZoneTemperature" rfl).1
    (by decide) "Core_ZONE" rfl

/-- Claim C3: whenever the alias indirections from a starting name form a
finite chain — every lookup on the chain succeeds, no node is revisited,
and a quote-containing string is reached after `n` hops — the resolution
function terminates within any fuel bound exceeding `n` and returns the
substring of the final string between its first pair of double quotes. -/
theorem claim3_alias_termination (tree : XNode) (nm s : String) (n fuel : Nat)
    (hchain : AliasChain tree nm s n) (hfuel : n < fuel) :
    _get_final_value tree fuel nm = .ok ((strSplitChar '"' s).getD 1 "") := by
  induction hchain generalizing fuel with
  | done nm s hres hq =>
    cases fuel with
    | zero => omega
    | succ m =>
      obtain ⟨node, hn, hb⟩ := hres
      simp [_get_final_value, hn, hb, hq]
  | hop nm s t n hres hq rest ih =>
    cases fuel with
    | zero => omega
    | succ m =>
      obtain ⟨node, hn, hb⟩ := hres
      simp only [_get_final_value, hn, hb, hq]
      simp only [Bool.false_eq_true, if_false]
      exact ih m (by omega)

/-- Witness for C3: the two-hop chain of `tKPI` starting at `senT.zone`
resolves to the literal `Core_ZONE` within fuel 8. -/
theorem claim3_witness :
    _get_final_value tKPI 8 "senT.zone" = .ok "Core_ZONE" := by
  have hchain : AliasChain tKPI "senT.zone" "\"Core_ZONE\"" 1 :=
    AliasChain.hop "senT.zone" "alias0" "\"Core_ZONE\"" 0
      ⟨zoneVar, rfl, rfl⟩ rfl
      (AliasChain.done "alias0" "\"Core_ZONE\"" ⟨aliasVar, rfl, rfl⟩ rfl)
  exact claim3_alias_termination tKPI "senT.zone" "\"Core_ZONE\"" 1 8 hchain (by omega)

set_option maxRecDepth 4000 in
/-- Claim C4 (Scenario A): one Overwrite entry for `sys.ctrl` with unit K,
description setpoint, bounds 280 and 320, empty Read map and original model
`Plant` yields wrapper text with exactly one input-signal declaration and
one input-activation declaration for `sys_ctrl`, one output declaration
bound to `mod.sys.ctrl.y`, and exactly one connection clause, which ends
with the comment noting overwrites are present. -/
theorem claim4_scenarioA :
    create_wrapper "Plant" instA = .ok (some wrapAtxt)
    ∧ strCount wrapAtxt "Modelica.Blocks.Interfaces.RealInput sys_ctrl_u" = 1
    ∧ strCount wrapAtxt "Modelica.Blocks.Interfaces.BooleanInput sys_ctrl_activate" = 1
    ∧ strCount wrapAtxt "Modelica.Blocks.Interfaces.RealOutput sys_ctrl_y" = 1
    ∧ strCount wrapAtxt "= mod.sys.ctrl.y" = 1
    ∧ strCount wrapAtxt "uExt(y=" = 1
    ∧ strCount wrapAtxt "activate(y=sys_ctrl_activate))) \"Original model with overwrites\";" = 1
    ∧ strCount wrapAtxt "without overwrites" = 0 := by
  refine ⟨rfl, ?_, ?_, ?_, ?_, ?_, ?_, ?_⟩ <;> decide

/-- Counterexample to C5 as stated: on `t5` the Read extraction for
basename `b` succeeds even though the extracted Unit is the empty string
(the unit attribute holds an empty quoted substring), so a successful
record need not have a non-empty Unit. -/
theorem claim5_counterexample :
    _process_readwrite t5 "b.boptestRead" { Overwrite := [], Read := [] } READ
      = .ok { Overwrite := [], Read := [("b", rec5)] }
    ∧ rec5.Unit = "" := ⟨rfl, rfl⟩

/-- Claim C5 as amended: for a Read/Overwrite variable whose extraction
succeeds, the stored record always carries (possibly empty) Unit and
Description strings, and its Minimum and Maximum are non-null iff the role
is Overwrite — for Overwrite they are the floats parsed from the companion
node's minValue/maxValue string attributes, for Read they are null. -/
theorem claim5_record_fields (tree : XNode) (nm : String) (maps maps2 : Instances) (flag : Nat)
    (hf : flag = READ ∨ flag = OVERWRITE)
    (h : _process_readwrite tree nm maps flag = .ok maps2) :
    ∃ r, alistFind? (if flag == READ then maps2.Read else maps2.Overwrite) (basenameOf nm) = some r
      ∧ (r.Minimum.isSome ↔ flag = OVERWRITE)
      ∧ (r.Maximum.isSome ↔ flag = OVERWRITE)
      ∧ (flag = READ → r.Minimum = none ∧ r.Maximum = none)
      ∧ (flag = OVERWRITE →
          ∃ node av ms xs, firstNamed tree (basenameOf nm ++ ".u") = some node
            ∧ XNode.find? node "attributesValues" = some av
            ∧ childString av "minValue" = .ok ms ∧ r.Minimum = pyFloat? ms
            ∧ childString av "maxValue" = .ok xs ∧ r.Maximum = pyFloat? xs) := by
  unfold _process_readwrite at h
  cases he : extractRecord tree (basenameOf nm) flag with
  | error e => rw [he] at h; exact Except.noConfusion h
  | ok r =>
  simp only [he] at h
  have hshape := extractRecord_shape tree (basenameOf nm) flag r he
  cases hf with
  | inl hread =>
    subst hread
    rw [if_pos (by decide : (READ == READ) = true)] at h
    injection h with h'
    obtain ⟨hm1, hm2⟩ := hshape.1 rfl
    refine ⟨r, ?_, ?_, ?_, ?_, ?_⟩
    · rw [if_pos (by decide : (READ == READ) = true), ← h']
      exact alistFind_alistSet maps.Read (basenameOf nm) r
    · rw [hm1]; simp [READ, OVERWRITE]
    · rw [hm2]; simp [READ, OVERWRITE]
    · intro _; exact ⟨hm1, hm2⟩
    · intro hcontra; exact absurd hcontra (by simp [READ, OVERWRITE])
  | inr hover =>
    subst hover
    rw [if_neg (by decide : ¬((OVERWRITE == READ) = true))] at h
    injection h with h'
    obtain ⟨node, av, ms, xs, mi, ma, hn, hav, hms, hpm, hrm, hxs, hpx, hrx⟩ :=
      hshape.2 (by decide)
    refine ⟨r, ?_, ?_, ?_, ?_, ?_⟩
    · rw [if_neg (by decide : ¬((OVERWRITE == READ) = true)), ← h']
      exact alistFind_alistSet maps.Overwrite (basenameOf nm) r
    · rw [hrm]; simp
    · rw [hrx]; simp
    · intro hcontra; exact absurd hcontra (by decide)
    · intro _
      refine ⟨node, av, ms, xs, hn, hav, hms, ?_, hxs, ?_⟩
      · rw [hrm, hpm]
      · rw [hrx, hpx]

/-- Witness for the amended C5: the Read extraction of basename `a` from
`tRW`, whose record has null bounds. -/
theorem claim5_witness :
    ∃ r, alistFind? instRW.Read "a" = some r
      ∧ (r.Minimum.isSome ↔ READ = OVERWRITE)
      ∧ (r.Maximum.isSome ↔ READ = OVERWRITE)
      ∧ (READ = READ → r.Minimum = none ∧ r.Maximum = none)
      ∧ (READ = OVERWRITE →
          ∃ node av ms xs, firstNamed tRW ("a" ++ ".u") = some node
            ∧ XNode.find? node "attributesValues" = some av
            ∧ childString av "minValue" = .ok ms ∧ r.Minimum = pyFloat? ms
            ∧ childString av "maxValue" = .ok xs ∧ r.Maximum = pyFloat? xs) :=
  claim5_record_fields tRW "a.boptestRead" { Overwrite := [], Read := [] } instRW READ
    (Or.inl rfl) rfl

set_option maxHeartbeats 1000000 in
/-- Claim C6: synthesis returns the NoWrapper sentinel (None, accompanied in
the source only by a non-fatal `warnings.warn` advisory) iff both the
Overwrite and the Read map are empty; for any non-empty input it produces
wrapper text rather than the sentinel. -/
theorem claim6_nowrapper (model_path : String) (maps : Instances) :
    (create_wrapper model_path maps = .ok none ↔ (maps.Overwrite = [] ∧ maps.Read = []))
    ∧ ((maps.Overwrite ≠ [] ∨ maps.Read ≠ []) →
        ∃ t, create_wrapper model_path maps = .ok (some t)) := by
  have hne : maps.Overwrite.length + maps.Read.length ≠ 0 →
      ∃ t, create_wrapper model_path maps = .ok (some t) := by
    intro hsum
    unfold create_wrapper
    rw [if_neg hsum]
    obtain ⟨ow, how⟩ := mapExcept_ok owDecl maps.Overwrite (fun p _ => owDecl_ok p)
    obtain ⟨os, hos⟩ := mapExcept_ok outDecl (maps.Read ++ maps.Overwrite) (fun p _ => outDecl_ok p)
    rw [how, hos]
    by_cases hlen : maps.Overwrite.length = 0
    · have hcond : ¬(maps.Overwrite.length ≠ 0) := fun hc => hc hlen
      rw [if_neg hcond]
      exact ⟨_, rfl⟩
    · rw [if_pos hlen]
      obtain ⟨cs, hcs⟩ := mapExcept_ok (fun q => connClause maps.Overwrite.length q.1 q.2)
        maps.Overwrite.enum (fun q _ => connClause_ok maps.Overwrite.length q.1 q.2)
      rw [hcs]
      exact ⟨_, rfl⟩
  constructor
  · constructor
    · intro h
      by_cases hsum : maps.Overwrite.length + maps.Read.length = 0
      · exact ⟨List.length_eq_zero.mp (by omega), List.length_eq_zero.mp (by omega)⟩
      · obtain ⟨t, ht⟩ := hne hsum
        rw [h] at ht
        exact absurd ht (by simp)
    · intro hemp
      unfold create_wrapper
      rw [if_pos (by simp [hemp.1, hemp.2])]
  · intro h
    apply hne
    intro hsum
    cases h with
    | inl h1 => exact h1 (List.length_eq_zero.mp (by omega))
    | inr h2 => exact h2 (List.length_eq_zero.mp (by omega))

/-- Witness for C6: Scenario A's non-empty maps yield wrapper text. -/
theorem claim6_witness : ∃ t, create_wrapper "Plant" instA = .ok (some t) :=
  (claim6_nowrapper "Plant" instA).2 (Or.inl (by simp [instA]))

/-- Claim C7: the name mangler replaces every dot of the path with an
underscore and appends, per role, `_u` plus attribute (input_signal),
`_activate` (input_activate) or `_y` plus attribute (output), followed by a
space and the double-quoted description exactly when the description is
non-empty; any other role fails with the invalid-style error. -/
theorem claim7_mangler (block style description attr : String) :
    (style = "input_signal" → _make_var_name block style description attr
        = .ok (replDots block ++ "_u" ++ attr
            ++ (if description = "" then "" else " \"" ++ description ++ "\"")))
    ∧ (style = "input_activate" → _make_var_name block style description attr
        = .ok (replDots block ++ "_activate"
            ++ (if description = "" then "" else " \"" ++ description ++ "\"")))
    ∧ (style = "output" → _make_var_name block style description attr
        = .ok (replDots block ++ "_y" ++ attr
            ++ (if description = "" then "" else " \"" ++ description ++ "\"")))
    ∧ (style ≠ "input_signal" → style ≠ "input_activate" → style ≠ "output" →
        _make_var_name block style description attr = .error (.invalidStyle style))
    ∧ replDots block = String.mk (block.data.map (fun c => if c = '.' then '_' else c)) := by
  refine ⟨?_, ?_, ?_, ?_, rfl⟩
  · intro h; subst h; exact mvn_input_signal block description attr
  · intro h; subst h; exact mvn_input_activate block description attr
  · intro h; subst h; exact mvn_output block description attr
  · intro h1 h2 h3
    simp only [_make_var_name, if_neg h1, if_neg h2, if_neg h3]

/-- Witness for C7 at each role and at an unknown role. -/
theorem claim7_witness :
    _make_var_name "a.b" "input_signal" "d" "(x)" = .ok "a_b_u(x) \"d\""
    ∧ _make_var_name "a.b" "input_activate" "" "" = .ok "a_b_activate"
    ∧ _make_var_name "a.b" "output" "mm" "(y)" = .ok "a_b_y(y) \"mm\""
    ∧ _make_var_name "a.b" "bogus" "" "" = .error (.invalidStyle "bogus") := by
  refine ⟨?_, ?_, ?_, ?_⟩
  · exact (claim7_mangler "a.b" "input_signal" "d" "(x)").1 rfl
  · exact (claim7_mangler "a.b" "input_activate" "" "").2.1 rfl
  · exact (claim7_mangler "a.b" "output" "mm" "(y)").2.2.1 rfl
  · exact (claim7_mangler "a.b" "bogus" "" "").2.2.2.1 (by decide) (by decide) (by decide)

/-- Claim C8: for a Read/Overwrite variable, extraction fails with the
missing-node error when the tree lacks the `basename + '.y'`/`'.u'` signal
node or (once the unit has been read) the `basename + '.description'`
node; it fails with the malformed-attribute errors when the unit or
description string contains no quoted substring, or, for Overwrite, when a
minValue/maxValue string is not parseable as a float; each failure returns
an error and therefore inserts no entry into either map. -/
theorem claim8_extraction_errors (tree : XNode) (nm : String) (maps : Instances) (flag : Nat) :
    (firstNamed tree (basenameOf nm ++ sigSuffix flag) = none →
      _process_readwrite tree nm maps flag
        = .error (.missingNode (basenameOf nm ++ sigSuffix flag)))
    ∧ (∀ node av us, firstNamed tree (basenameOf nm ++ sigSuffix flag) = some node →
        XNode.find? node "attributesValues" = some av →
        childString av "unit" = .ok us → strContains us "\"" = false →
        _process_readwrite tree nm maps flag = .error (.malformedQuote us))
    ∧ (∀ node av us, firstNamed tree (basenameOf nm ++ sigSuffix flag) = some node →
        XNode.find? node "attributesValues" = some av →
        childString av "unit" = .ok us → strContains us "\"" = true →
        firstNamed tree (basenameOf nm ++ ".description") = none →
        _process_readwrite tree nm maps flag
          = .error (.missingNode (basenameOf nm ++ ".description")))
    ∧ (∀ node av us dnode ds, firstNamed tree (basenameOf nm ++ sigSuffix flag) = some node →
        XNode.find? node "attributesValues" = some av →
        childString av "unit" = .ok us → strContains us "\"" = true →
        firstNamed tree (basenameOf nm ++ ".description") = some dnode →
        childString dnode "bindExpression" = .ok ds → strContains ds "\"" = false →
        _process_readwrite tree nm maps flag = .error (.malformedQuote ds))
    ∧ (∀ node av us dnode ds ms, firstNamed tree (basenameOf nm ++ sigSuffix flag) = some node →
        XNode.find? node "attributesValues" = some av →
        childString av "unit" = .ok us → strContains us "\"" = true →
        firstNamed tree (basenameOf nm ++ ".description") = some dnode →
        childString dnode "bindExpression" = .ok ds → strContains ds "\"" = true →
        (flag == READ) = false →
        childString av "minValue" = .ok ms → pyFloat? ms = none →
        _process_readwrite tree nm maps flag = .error (.malformedFloat ms))
    ∧ (∀ node av us dnode ds ms mi xs,
        firstNamed tree (basenameOf nm ++ sigSuffix flag) = some node →
        XNode.find? node "attributesValues" = some av →
        childString av "unit" = .ok us → strContains us "\"" = true →
        firstNamed tree (basenameOf nm ++ ".description") = some dnode →
        childString dnode "bindExpression" = .ok ds → strContains ds "\"" = true →
        (flag == READ) = false →
        childString av "minValue" = .ok ms → pyFloat? ms = some mi →
        childString av "maxValue" = .ok xs → pyFloat? xs = none →
        _process_readwrite tree nm maps flag = .error (.malformedFloat xs)) := by
  refine ⟨?_, ?_, ?_, ?_, ?_, ?_⟩
  · intro h1
    simp only [_process_readwrite, extractRecord, h1]
  · intro node av us h1 h2 h3 hq
    have h4 := noQuote_none us hq
    simp only [_process_readwrite, extractRecord, h1, h2, h3, h4]
  · intro node av us h1 h2 h3 hq h5
    obtain ⟨u, hu⟩ := hasQuote_some us hq
    simp only [_process_readwrite, extractRecord, h1, h2, h3, hu, h5]
  · intro node av us dnode ds h1 h2 h3 hq h5 h6 hq2
    obtain ⟨u, hu⟩ := hasQuote_some us hq
    have h7 := noQuote_none ds hq2
    simp only [_process_readwrite, extractRecord, h1, h2, h3, hu, h5, h6, h7]
  · intro node av us dnode ds ms h1 h2 h3 hq h5 h6 hq2 hflag h8 h9
    obtain ⟨u, hu⟩ := hasQuote_some us hq
    obtain ⟨d, hd⟩ := hasQuote_some ds hq2
    simp only [_process_readwrite, extractRecord, h1, h2, h3, hu, h5, h6, hd, hflag,
      Bool.false_eq_true, if_false, h8, h9]
  · intro node av us dnode ds ms mi xs h1 h2 h3 hq h5 h6 hq2 hflag h8 h9 h10 h11
    obtain ⟨u, hu⟩ := hasQuote_some us hq
    obtain ⟨d, hd⟩ := hasQuote_some ds hq2
    simp only [_process_readwrite, extractRecord, h1, h2, h3, hu, h5, h6, hd, hflag,
      Bool.false_eq_true, if_false, h8, h9, h10, h11]

/-- Witness for C8: a missing signal node, a quoteless unit, a missing
description node, an unparseable minValue and an unparseable maxValue each
produce the corresponding error on a concrete tree. -/
theorem claim8_witness :
    _process_readwrite t5 "zz.boptestRead" { Overwrite := [], Read := [] } READ
      = .error (.missingNode "zz.y")
    ∧ _process_readwrite t8b "q.boptestRead" { Overwrite := [], Read := [] } READ
      = .error (.malformedQuote "K")
    ∧ _process_readwrite t8c "d.boptestRead" { Overwrite := [], Read := [] } READ
      = .error (.missingNode "d.description")
    ∧ _process_readwrite t8 "m.boptestOverwrite" { Overwrite := [], Read := [] } OVERWRITE
      = .error (.malformedFloat "abc")
    ∧ _process_readwrite t8max "n.boptestOverwrite" { Overwrite := [], Read := [] } OVERWRITE
      = .error (.malformedFloat "xyz") := by
  refine ⟨?_, ?_, ?_, ?_, ?_⟩
  · exact (claim8_extraction_errors t5 "zz.boptestRead" { Overwrite := [], Read := [] } READ).1
      rfl
  · exact (claim8_extraction_errors t8b "q.boptestRead" { Overwrite := [], Read := [] } READ).2.1
      qyNode qavNode "K" rfl rfl rfl rfl
  · exact (claim8_extraction_errors t8c "d.boptestRead" { Overwrite := [], Read := [] }
      READ).2.2.1 dyNode davNode "\"C\"" rfl rfl rfl rfl rfl
  · exact (claim8_extraction_errors t8 "m.boptestOverwrite" { Overwrite := [], Read := [] }
      OVERWRITE).2.2.2.2.1 muNode mavNode "\"K\"" mdNode "\"dd\"" "abc"
      rfl rfl rfl rfl rfl rfl rfl rfl rfl rfl
  · exact (claim8_extraction_errors t8max "n.boptestOverwrite" { Overwrite := [], Read := [] }
      OVERWRITE).2.2.2.2.2 nuNode navNode "\"K\"" ndNode "\"nn\"" "1.0" 1 "xyz"
      rfl rfl rfl rfl rfl rfl rfl rfl rfl (by with_unfolding_all rfl) rfl rfl

/-- Claim C9: when two classified variables share a basename and target the
same map, processing the later one succeeds without error and silently
replaces the earlier record — afterwards the map holds exactly the record
extracted for the later variable, with no merging of fields. -/
theorem claim9_last_write_wins (tree : XNode) (n1 n2 : String) (maps i1 i2 : Instances)
    (flag : Nat) (hf : flag = READ ∨ flag = OVERWRITE)
    (hb : basenameOf n1 = basenameOf n2)
    (h1 : _process_readwrite tree n1 maps flag = .ok i1)
    (h2 : _process_readwrite tree n2 i1 flag = .ok i2) :
    ∃ r, extractRecord tree (basenameOf n2) flag = .ok r
      ∧ alistFind? (if flag == READ then i2.Read else i2.Overwrite) (basenameOf n2) = some r := by
  unfold _process_readwrite at h2
  cases he : extractRecord tree (basenameOf n2) flag with
  | error e => rw [he] at h2; exact Except.noConfusion h2
  | ok r =>
  simp only [he] at h2
  cases hf with
  | inl hread =>
    subst hread
    rw [if_pos (by decide : (READ == READ) = true)] at h2
    injection h2 with h2'
    refine ⟨r, rfl, ?_⟩
    rw [if_pos (by decide : (READ == READ) = true), ← h2']
    exact alistFind_alistSet i1.Read (basenameOf n2) r
  | inr hover =>
    subst hover
    rw [if_neg (by decide : ¬((OVERWRITE == READ) = true))] at h2
    injection h2 with h2'
    refine ⟨r, rfl, ?_⟩
    rw [if_neg (by decide : ¬((OVERWRITE == READ) = true)), ← h2']
    exact alistFind_alistSet i1.Overwrite (basenameOf n2) r

/-- Witness for C9: processing `a.boptestRead` and then `a.boptestReadX`
(same basename `a`) on `tRW` leaves the Read map holding exactly the record
extracted for the second variable. -/
theorem claim9_witness :
    ∃ r, extractRecord tRW "a" READ = .ok r ∧ alistFind? instRW.Read "a" = some r :=
  claim9_last_write_wins tRW "a.boptestRead" "a.boptestReadX"
    { Overwrite := [], Read := [] } instRW instRW READ (Or.inl rfl) rfl rfl rfl

/-- Claim C10: name mangling is not injective on basenames — the distinct
dotted paths `a.b` and `a_b` mangle, for the output role, to the same
identifier `a_b_y`, and a tree containing KPI variables for both basenames
ends up with duplicate identifier strings in its signal-group list. -/
theorem claim10_mangling_collision :
    ("a.b" : String) ≠ "a_b"
    ∧ _make_var_name "a.b" "output" "" "" = _make_var_name "a_b" "output" "" ""
    ∧ _make_var_name "a.b" "output" "" "" = .ok "a_b_y"
    ∧ parse_XML tColl
        = .ok ({ Overwrite := [], Read := [] }, [("Foo", ["a_b_y", "a_b_y"])]) := by
  refine ⟨by decide, rfl, rfl, rfl⟩
